import Mathlib

/-!
Shallow embedding of the Noodle core: the `modules` relation (drizzle schema),
the tRPC modules router (`getById`, `getUserModules`, `create`, `archive`,
`recover`, `update`, `updateLastVisited`), and the Redis fixed-window rate
limiter, together with theorems settling the spec claims about them.

Timestamps are epoch milliseconds as `Nat`; the relational store is a list of
rows; Redis is a pair of key-indexed maps plus an availability flag, and the
`try`/`catch` blocks of the source are embedded as `Except` values with an
explicit handler.
-/

namespace Noodle

/-- One row of the `modules` table, following the drizzle schema
(`id`, `user_id`, `name`, nullable `description`, `code`, `icon`, `color`,
`archived`, `credits`, `created_at`, `modified_at`, `last_visited`). -/
structure Module where
  id : String
  user_id : String
  name : String
  description : Option String
  code : String
  icon : String
  color : String
  archived : Bool
  credits : Int
  createdAt : Nat
  modifiedAt : Nat
  lastVisited : Nat
deriving Repr, DecidableEq

/-- The `modules` relation: a list of rows. -/
abbrev DB := List Module

/-- The TRPC error codes that the modules router uses. -/
inductive TRPCCode
  | BAD_REQUEST
  | NOT_FOUND
  | INTERNAL_SERVER_ERROR
deriving Repr, DecidableEq

/-- A `TRPCError` value: code plus message, as constructed in the router. -/
structure TRPCError where
  code : TRPCCode
  message : String
deriving Repr, DecidableEq

/-- What the `try` block of `getById` can throw: a `TRPCError`, or a
`DrizzleError` coming from the store layer. -/
inductive Thrown
  | trpc (e : TRPCError)
  | drizzle (message : String)
deriving Repr, DecidableEq

/-- `db.query.modulesTable.findFirst({ where })`: first row satisfying the
predicate. -/
def findFirstModule (db : DB) (p : Module → Bool) : Option Module :=
  db.find? p

/-- The `where` clause `and(eq(t.id, id), eq(t.user_id, userId))`. -/
def matchesIdUser (id userId : String) (t : Module) : Bool :=
  t.id == id && t.user_id == userId

/-- The body of `getById`'s `try` block: look the module up scoped to the
caller; when absent, throw `TRPCError { code: BAD_REQUEST, message: "Module
not found" }`. -/
def getByIdBody (db : DB) (userId id : String) : Except Thrown Module :=
  match findFirstModule db (matchesIdUser id userId) with
  | some userModule => .ok userModule
  | none => .error (.trpc ⟨.BAD_REQUEST, "Module not found"⟩)

/-- The `catch` handler of `getById`: a `DrizzleError` is rewrapped as
`BAD_REQUEST` with its message; anything else (including the `TRPCError`
thrown by the body itself) becomes `INTERNAL_SERVER_ERROR`. -/
def getByIdCatch (e : Thrown) : TRPCError :=
  match e with
  | .drizzle msg => ⟨.BAD_REQUEST, msg⟩
  | .trpc _ => ⟨.INTERNAL_SERVER_ERROR, "An error occurred while fetching the module"⟩

/-- `getById`: the `try` body with its `catch` handler applied to whatever it
throws. -/
def getById (db : DB) (userId id : String) : Except TRPCError Module :=
  match getByIdBody db userId id with
  | .ok m => .ok m
  | .error e => .error (getByIdCatch e)

/-- `desc(t.lastVisited)`: `a` sorts before `b` when `a` was visited no
earlier than `b`. -/
def lastVisitedDesc (a b : Module) : Prop :=
  b.lastVisited ≤ a.lastVisited

instance : DecidableRel lastVisitedDesc :=
  fun a b => Nat.decLe b.lastVisited a.lastVisited

instance : IsTotal Module lastVisitedDesc :=
  ⟨fun a b => le_total b.lastVisited a.lastVisited⟩

instance : IsTrans Module lastVisitedDesc :=
  ⟨fun _ _ _ hab hbc => le_trans hbc hab⟩

/-- `db.query.modulesTable.findMany({ where, orderBy: desc(lastVisited),
limit })`: filter, sort descending by `lastVisited` (a stable insertion sort:
one legal realisation of the store's sort on this non-unique key), take
`limit` rows. -/
def findManyByLastVisited (db : DB) (p : Module → Bool) (lim : Nat) : List Module :=
  ((db.filter p).insertionSort lastVisitedDesc).take lim

/-- Result shape of `getUserModules`. -/
structure Page where
  items : List Module
  nextCursor : Option String
deriving Repr, DecidableEq

/-- The cursor-anchor lookup of `getUserModules`: `findFirst` by id only (not
scoped to the caller), yielding the anchor module's `lastVisited`. -/
def resolveCursor (db : DB) (cursor : Option String) : Option Nat :=
  match cursor with
  | none => none
  | some c => (findFirstModule db (fun t => t.id == c)).map Module.lastVisited

/-- The `where` callback of the page query: owner match, plus
`lt(t.lastVisited, cursorDate)` when a cursor date was resolved. -/
def pageFilter (userId : String) (cursorDate : Option Nat) (t : Module) : Bool :=
  match cursorDate with
  | some d => t.user_id == userId && t.lastVisited < d
  | none => t.user_id == userId

/-- `getUserModules`: resolve the cursor anchor, fetch `limit + 1` rows
ordered by `lastVisited` descending, drop the sentinel row when present, and
emit the last returned item's id as `nextCursor` when more rows exist. -/
def getUserModules (db : DB) (userId : String) (limit : Nat) (cursor : Option String) : Page :=
  let cursorDate := resolveCursor db cursor
  let modules := findManyByLastVisited db (pageFilter userId cursorDate) (limit + 1)
  let hasMore := limit < modules.length
  let items := if hasMore then modules.dropLast else modules
  { items := items
    nextCursor := if hasMore then items.getLast?.map Module.id else none }

/-- The `create` input after zod validation of
`insertModuleSchema.pick({name, description, code, icon, color, credits})`:
`description` stays optional, while `icon`/`color`/`credits` carry their zod
defaults when the client omitted them. -/
structure CreateInput where
  name : String
  description : Option String
  code : String
  icon : Option String
  color : Option String
  credits : Option Int
deriving Repr, DecidableEq

/-- zod parsing of the `create` input: apply the schema defaults
`icon: 'default'`, `color: 'default'`, `credits: 0`. -/
structure ParsedCreateInput where
  name : String
  description : Option String
  code : String
  icon : String
  color : String
  credits : Int
deriving Repr, DecidableEq

/-- Apply the zod defaults of `insertModuleSchema` to a raw `create` input. -/
def zodParseCreate (i : CreateInput) : ParsedCreateInput :=
  { name := i.name
    description := i.description
    code := i.code
    icon := i.icon.getD "default"
    color := i.color.getD "default"
    credits := i.credits.getD 0 }

/-- `create`: insert `{...input, description: input.description ?? '',
user_id}` and let the column defaults fill `id` (fresh uuid `freshId`),
`archived = false`, `credits`, and the three `now()` timestamps; `.returning()`
yields the inserted row. -/
def create (db : DB) (userId freshId : String) (now : Nat) (raw : CreateInput) :
    Module × DB :=
  let input := zodParseCreate raw
  let row : Module :=
    { id := freshId
      user_id := userId
      name := input.name
      description := some (input.description.getD "")
      code := input.code
      icon := input.icon
      color := input.color
      archived := false
      credits := input.credits
      createdAt := now
      modifiedAt := now
      lastVisited := now }
  (row, db ++ [row])

/-- `db.update(modulesTable).set(f).where(p)`: rewrite every row matching the
`where` clause and report the number of affected rows. -/
def dbUpdate (db : DB) (p : Module → Bool) (f : Module → Module) : Nat × DB :=
  ((db.filter p).length, db.map fun t => if p t then f t else t)

/-- `archive`: set `{ archived: true }` on the row matching id and caller. -/
def archive (db : DB) (userId id : String) : Nat × DB :=
  dbUpdate db (matchesIdUser id userId) fun t => { t with archived := true }

/-- `recover`: set `{ archived: false }` on the row matching id and caller. -/
def recover (db : DB) (userId id : String) : Nat × DB :=
  dbUpdate db (matchesIdUser id userId) fun t => { t with archived := false }

/-- `updateLastVisited`: set `{ lastVisited: now }` on the row matching id and
caller. -/
def updateLastVisited (db : DB) (userId id : String) (now : Nat) : Nat × DB :=
  dbUpdate db (matchesIdUser id userId) fun t => { t with lastVisited := now }

/-- The `update` input after zod validation, with the id split off:
`icon`/`color`/`credits` carry their zod defaults, `description` stays
optional. -/
structure UpdateFields where
  name : String
  description : Option String
  code : String
  icon : String
  color : String
  credits : Int
deriving Repr, DecidableEq

/-- The `.set({...updateData, description: updateData.description ?? '',
modifiedAt: new Date()})` payload of `update` applied to one row. -/
def applyUpdateFields (f : UpdateFields) (now : Nat) (t : Module) : Module :=
  { t with
    name := f.name
    description := some (f.description.getD "")
    code := f.code
    icon := f.icon
    color := f.color
    credits := f.credits
    modifiedAt := now }

/-- `update`: existence check scoped to the caller (`NOT_FOUND` "Module not
found" when it fails), then the scoped `set` with `modifiedAt` advanced to
`now`. -/
def update (db : DB) (userId moduleId : String) (f : UpdateFields) (now : Nat) :
    Except TRPCError (Nat × DB) :=
  match findFirstModule db (matchesIdUser moduleId userId) with
  | none => .error ⟨.NOT_FOUND, "Module not found"⟩
  | some _ => .ok (dbUpdate db (matchesIdUser moduleId userId) (applyUpdateFields f now))

/-! ### Rate limiter (Redis fixed-window counter) -/

/-- Shape of the object `rateLimit` returns. -/
structure RateLimitResult where
  success : Bool
  remaining : Int
  reset : Int
deriving Repr, DecidableEq

/-- The Redis store: per-key counter values, per-key TTLs (Redis convention:
`-2` when the key has no expiry record), and whether the store is reachable. -/
structure RedisState where
  counter : String → Nat
  ttlOf : String → Int
  available : Bool

/-- A Redis store with no keys. -/
def freshRedis : RedisState :=
  { counter := fun _ => 0, ttlOf := fun _ => -2, available := true }

/-- An unreachable Redis store (every command throws). -/
def downRedis : RedisState :=
  { freshRedis with available := false }

/-- `redis.incr(key)`: add one to the key's counter and return the new value;
throws when the store is unreachable. -/
def redisIncr (s : RedisState) (k : String) : Except Unit (Nat × RedisState) :=
  if s.available then
    let c := s.counter k + 1
    .ok (c, { s with counter := fun k2 => if k2 = k then c else s.counter k2 })
  else
    .error ()

/-- `redis.expire(key, window)`: set the key's TTL to `window` seconds;
throws when the store is unreachable. -/
def redisExpire (s : RedisState) (k : String) (window : Nat) : Except Unit RedisState :=
  if s.available then
    .ok { s with ttlOf := fun k2 => if k2 = k then (window : Int) else s.ttlOf k2 }
  else
    .error ()

/-- `redis.ttl(key)`: the key's remaining TTL in seconds; throws when the
store is unreachable. -/
def redisTtl (s : RedisState) (k : String) : Except Unit Int :=
  if s.available then .ok (s.ttlOf k) else .error ()

/-- The key format `rate_limit:<identifier>`. -/
def rateLimitKey (identifier : String) : String :=
  "rate_limit:" ++ identifier

/-- The body of `rateLimit`'s `try` block: increment, set the expiry on the
window's first increment, read the TTL. -/
def rateLimitBody (s : RedisState) (identifier : String) (window : Nat) :
    Except Unit (Nat × Int × RedisState) := do
  let key := rateLimitKey identifier
  let (count, s1) ← redisIncr s key
  let s2 ← if count = 1 then redisExpire s1 key window else pure s1
  let ttl ← redisTtl s2 key
  pure (count, ttl, s2)

/-- `rateLimit(identifier, limit = 5, window = 60)`: fixed-window counter.
On success, `success = count <= limit`, `remaining = max(0, limit - count)`,
`reset = Date.now() + ttl * 1000`. When the store throws, the `catch` branch
fails open: `success = true`, `remaining = limit`,
`reset = Date.now() + window * 1000`. -/
def rateLimit (s : RedisState) (now : Nat) (identifier : String)
    (limit : Nat := 5) (window : Nat := 60) : RateLimitResult × RedisState :=
  match rateLimitBody s identifier window with
  | .ok (count, ttl, s2) =>
      ({ success := count ≤ limit
         remaining := max 0 ((limit : Int) - (count : Int))
         reset := (now : Int) + ttl * 1000 }, s2)
  | .error _ =>
      ({ success := true
         remaining := (limit : Int)
         reset := (now : Int) + (window : Int) * 1000 }, s)

/-- The Redis state after `n` consecutive `rateLimit` calls for the same
identifier within one window (the clock frozen at `now`). -/
def rateLimitRun (s : RedisState) (now : Nat) (identifier : String)
    (limit window : Nat) : Nat → RedisState
  | 0 => s
  | n + 1 => (rateLimit (rateLimitRun s now identifier limit window n)
      now identifier limit window).2

/-! ### Update sequences (for the `modifiedAt` monotonicity claim) -/

/-- The caller's view of one module: the row matching the id and the caller,
exactly the lookup `getById` and `update` perform. -/
def moduleState (db : DB) (userId moduleId : String) : Option Module :=
  findFirstModule db (matchesIdUser moduleId userId)

/-- The table after one `update` call: the new table on success, the old one
when the call failed with `NOT_FOUND`. -/
def updateDb (db : DB) (userId moduleId : String) (f : UpdateFields) (now : Nat) : DB :=
  match update db userId moduleId f now with
  | .ok r => r.2
  | .error _ => db

/-- The `modifiedAt` value of the module as observed after each call of a
sequence of `update` calls (each step is a field payload together with the
wall-clock time of the call). -/
def modifiedAtTrace (db : DB) (userId moduleId : String) :
    List (UpdateFields × Nat) → List Nat
  | [] => []
  | s :: rest =>
    let db2 := updateDb db userId moduleId s.1 s.2
    ((moduleState db2 userId moduleId).map Module.modifiedAt).getD 0 ::
      modifiedAtTrace db2 userId moduleId rest

/-! ### Shared lemmas -/

theorem findMany_pairwise (db : DB) (p : Module → Bool) (lim : Nat) :
    (findManyByLastVisited db p lim).Pairwise lastVisitedDesc :=
  List.Pairwise.sublist (List.take_sublist lim _)
    (List.sorted_insertionSort lastVisitedDesc (db.filter p))

theorem mem_findMany {db : DB} {p : Module → Bool} {lim : Nat} {m : Module}
    (h : m ∈ findManyByLastVisited db p lim) : m ∈ db ∧ p m = true := by
  have h1 : m ∈ (db.filter p).insertionSort lastVisitedDesc :=
    List.take_subset _ _ h
  have h2 : m ∈ db.filter p :=
    (List.perm_insertionSort lastVisitedDesc (db.filter p)).subset h1
  exact ⟨List.mem_of_mem_filter h2, List.of_mem_filter h2⟩

theorem findMany_length (db : DB) (p : Module → Bool) (lim : Nat) :
    (findManyByLastVisited db p lim).length = min lim (db.filter p).length := by
  simp [findManyByLastVisited, List.length_take, List.length_insertionSort]

theorem items_sublist_findMany (db : DB) (userId : String) (limit : Nat)
    (cursor : Option String) :
    (getUserModules db userId limit cursor).items.Sublist
      (findManyByLastVisited db (pageFilter userId (resolveCursor db cursor)) (limit + 1)) := by
  simp only [getUserModules]
  split
  · exact List.dropLast_sublist _
  · exact List.Sublist.refl _

theorem mem_items {db : DB} {userId : String} {limit : Nat} {cursor : Option String}
    {m : Module} (h : m ∈ (getUserModules db userId limit cursor).items) :
    m ∈ db ∧ pageFilter userId (resolveCursor db cursor) m = true :=
  mem_findMany ((items_sublist_findMany db userId limit cursor).subset h)

theorem items_pairwise (db : DB) (userId : String) (limit : Nat)
    (cursor : Option String) :
    (getUserModules db userId limit cursor).items.Pairwise
      fun a b => b.lastVisited ≤ a.lastVisited := by
  exact List.Pairwise.sublist (items_sublist_findMany db userId limit cursor)
    (findMany_pairwise db (pageFilter userId (resolveCursor db cursor)) (limit + 1))

theorem items_length_le (db : DB) (userId : String) (limit : Nat)
    (cursor : Option String) :
    (getUserModules db userId limit cursor).items.length ≤ limit := by
  have hlen : (findManyByLastVisited db (pageFilter userId (resolveCursor db cursor))
      (limit + 1)).length ≤ limit + 1 := by
    rw [findMany_length]
    exact min_le_left _ _
  simp only [getUserModules]
  split
  · simpa [List.length_dropLast] using Nat.sub_le_of_le_add hlen
  · omega

theorem find?_id_of_nodup {db : DB} (hnodup : (db.map Module.id).Nodup)
    {m : Module} (hm : m ∈ db) : db.find? (fun t => t.id == m.id) = some m := by
  induction db with
  | nil => cases hm
  | cons a l ih =>
      simp only [List.map_cons, List.nodup_cons] at hnodup
      rcases List.mem_cons.mp hm with rfl | hml
      · simp [List.find?]
      · have hne : a.id ≠ m.id := by
          intro hEq
          exact hnodup.1 (hEq ▸ List.mem_map_of_mem Module.id hml)
        rw [List.find?_cons_of_neg _ (by simp [hne])]
        exact ih hnodup.2 hml

theorem getLast_lastVisited_le {l : List Module}
    (hp : l.Pairwise fun a b => b.lastVisited ≤ a.lastVisited) (hne : l ≠ []) :
    ∀ m ∈ l, (l.getLast hne).lastVisited ≤ m.lastVisited := by
  induction l with
  | nil => cases hne rfl
  | cons a t ih =>
      intro m hm
      cases t with
      | nil =>
          rcases List.mem_singleton.mp hm with rfl
          simp [List.getLast]
      | cons b t2 =>
          rw [List.getLast_cons (by simp)]
          rcases List.mem_cons.mp hm with rfl | hmt
          · exact (List.pairwise_cons.mp hp).1 _ (List.getLast_mem _)
          · exact ih (List.pairwise_cons.mp hp).2 (by simp) m hmt

/-! ### Claim theorems -/

/-- Claim C1: `getById` on an id that resolves to no caller-owned module is
meant to fail with a NotFound-class error, but the `TRPCError` thrown inside
the `try` block is caught by the block's own `catch` handler and replaced by
`INTERNAL_SERVER_ERROR`; both when the id exists for nobody (empty table) and
when it is owned by a different user, the caller observes an Internal-class
error, not a NotFound-class one. -/
theorem getById_missing_yields_internal_error :
    getById [] "u1" "3f1e2d00-0000-4000-8000-000000000001" =
      .error ⟨.INTERNAL_SERVER_ERROR, "An error occurred while fetching the module"⟩ ∧
    getById [⟨"3f1e2d00-0000-4000-8000-000000000001", "u2", "Algorithms",
        some "", "CS201", "default", "default", false, 4, 0, 0, 0⟩]
      "u1" "3f1e2d00-0000-4000-8000-000000000001" =
      .error ⟨.INTERNAL_SERVER_ERROR, "An error occurred while fetching the module"⟩ :=
  ⟨rfl, rfl⟩

/-- Claim C4: when the key-value store is unreachable, `rateLimit` swallows
the failure and fails open: it returns `allowed = true`,
`remaining = limit`, and a reset one full window ahead of `now`, leaving the
store untouched; no error propagates (the function is total). -/
theorem rateLimit_fail_open (s : RedisState) (now : Nat) (identifier : String)
    (limit window : Nat) (hdown : s.available = false) :
    rateLimit s now identifier limit window =
      ({ success := true, remaining := (limit : Int),
         reset := (now : Int) + (window : Int) * 1000 }, s) := by
  simp [rateLimit, rateLimitBody, redisIncr, hdown, Bind.bind, Except.bind]

/-- Witness for C4: a concrete unreachable store, with `limit = 5`,
`window = 60`, `now = 0`. -/
theorem rateLimit_fail_open_witness :
    rateLimit downRedis 0 "u1" 5 60 =
      ({ success := true, remaining := 5, reset := 60000 }, downRedis) :=
  rateLimit_fail_open downRedis 0 "u1" 5 60 rfl

/-- The `where` clause of the scoped updates only inspects `id` and
`user_id`, which setting `archived` does not change. -/
theorem matchesIdUser_set_archived (id userId : String) (t : Module) (b : Bool) :
    matchesIdUser id userId { t with archived := b } = matchesIdUser id userId t :=
  rfl

/-- Claim C9: `archive` followed by `recover` on the same id rewrites exactly
the rows matching the id and the caller, setting `archived := false` on them
and leaving every other field (including each timestamp, which neither
operation touches) and every other row unchanged; in particular every
caller-owned row with that id ends with `archived = false`. -/
theorem archive_recover_frame (db : DB) (userId id : String) :
    (recover (archive db userId id).2 userId id).2 =
      (db.map fun t => if matchesIdUser id userId t then { t with archived := false } else t) ∧
    ∀ m ∈ (recover (archive db userId id).2 userId id).2,
      matchesIdUser id userId m = true → m.archived = false := by
  have hmap : (recover (archive db userId id).2 userId id).2 =
      db.map fun t => if matchesIdUser id userId t then { t with archived := false } else t := by
    simp only [archive, recover, dbUpdate, List.map_map]
    refine List.map_congr_left fun t _ => ?_
    by_cases hp : matchesIdUser id userId t
    · simp [Function.comp, hp, matchesIdUser_set_archived]
    · simp [Function.comp, hp]
  refine ⟨hmap, ?_⟩
  intro m hm hmatch
  rw [hmap] at hm
  rcases List.mem_map.mp hm with ⟨t, _, rfl⟩
  by_cases hp : matchesIdUser id userId t
  · simp [hp]
  · rw [if_neg hp] at hmatch ⊢
    exact absurd hmatch hp

/-- Claim C7: a module returned by `create` carries the freshly generated id
(unique in the new table when the old ids were distinct), `archived = false`,
the empty-string description when the input omitted one, the `"default"` icon
and color tokens when the input omitted them, and
`createdAt = modifiedAt = lastVisited`. -/
theorem create_defaults (db : DB) (userId freshId : String) (now : Nat)
    (raw : CreateInput) (hfresh : freshId ∉ db.map Module.id)
    (hnodup : (db.map Module.id).Nodup) :
    (create db userId freshId now raw).1.id = freshId ∧
    (create db userId freshId now raw).1.id ∉ db.map Module.id ∧
    ((create db userId freshId now raw).2.map Module.id).Nodup ∧
    (create db userId freshId now raw).1.archived = false ∧
    (raw.description = none → (create db userId freshId now raw).1.description = some "") ∧
    (raw.icon = none → (create db userId freshId now raw).1.icon = "default") ∧
    (raw.color = none → (create db userId freshId now raw).1.color = "default") ∧
    (create db userId freshId now raw).1.createdAt = (create db userId freshId now raw).1.modifiedAt ∧
    (create db userId freshId now raw).1.modifiedAt = (create db userId freshId now raw).1.lastVisited := by
  refine ⟨rfl, hfresh, ?_, rfl, ?_, ?_, ?_, rfl, rfl⟩
  · simp only [create, List.map_append, List.map_cons, List.map_nil]
    rw [List.nodup_append]
    refine ⟨hnodup, List.nodup_singleton _, ?_⟩
    intro a ha hb
    rcases List.mem_singleton.mp hb with rfl
    exact hfresh ha
  · intro h
    simp [create, zodParseCreate, h]
  · intro h
    simp [create, zodParseCreate, h]
  · intro h
    simp [create, zodParseCreate, h]

/-- Witness for C7: creating `{name: "Algorithms", code: "CS201", credits: 4}`
with every optional field absent, in an empty table. -/
theorem create_defaults_witness :
    (create [] "u1" "3f1e2d00-0000-4000-8000-000000000002" 1000
        ⟨"Algorithms", none, "CS201", none, none, some 4⟩).1.id =
      "3f1e2d00-0000-4000-8000-000000000002" ∧
    (create [] "u1" "3f1e2d00-0000-4000-8000-000000000002" 1000
        ⟨"Algorithms", none, "CS201", none, none, some 4⟩).1.id ∉
      ([] : DB).map Module.id ∧
    (((create [] "u1" "3f1e2d00-0000-4000-8000-000000000002" 1000
        ⟨"Algorithms", none, "CS201", none, none, some 4⟩).2).map Module.id).Nodup ∧
    (create [] "u1" "3f1e2d00-0000-4000-8000-000000000002" 1000
        ⟨"Algorithms", none, "CS201", none, none, some 4⟩).1.archived = false ∧
    (create [] "u1" "3f1e2d00-0000-4000-8000-000000000002" 1000
        ⟨"Algorithms", none, "CS201", none, none, some 4⟩).1.description = some "" ∧
    (create [] "u1" "3f1e2d00-0000-4000-8000-000000000002" 1000
        ⟨"Algorithms", none, "CS201", none, none, some 4⟩).1.icon = "default" ∧
    (create [] "u1" "3f1e2d00-0000-4000-8000-000000000002" 1000
        ⟨"Algorithms", none, "CS201", none, none, some 4⟩).1.color = "default" ∧
    (create [] "u1" "3f1e2d00-0000-4000-8000-000000000002" 1000
        ⟨"Algorithms", none, "CS201", none, none, some 4⟩).1.createdAt =
      (create [] "u1" "3f1e2d00-0000-4000-8000-000000000002" 1000
        ⟨"Algorithms", none, "CS201", none, none, some 4⟩).1.modifiedAt ∧
    (create [] "u1" "3f1e2d00-0000-4000-8000-000000000002" 1000
        ⟨"Algorithms", none, "CS201", none, none, some 4⟩).1.modifiedAt =
      (create [] "u1" "3f1e2d00-0000-4000-8000-000000000002" 1000
        ⟨"Algorithms", none, "CS201", none, none, some 4⟩).1.lastVisited := by
  obtain ⟨h1, h2, h3, h4, h5, h6, h7, h8, h9⟩ :=
    create_defaults [] "u1" "3f1e2d00-0000-4000-8000-000000000002" 1000
      ⟨"Algorithms", none, "CS201", none, none, some 4⟩ (by simp) (by simp)
  exact ⟨h1, h2, h3, h4, h5 rfl, h6 rfl, h7 rfl, h8, h9⟩

/-- One `rateLimit` call against a reachable store keeps the store reachable
and adds one to the identifier's counter. -/
theorem rateLimit_step_state (s : RedisState) (now : Nat) (identifier : String)
    (limit window : Nat) (ha : s.available = true) :
    (rateLimit s now identifier limit window).2.available = true ∧
    (rateLimit s now identifier limit window).2.counter (rateLimitKey identifier) =
      s.counter (rateLimitKey identifier) + 1 := by
  by_cases h1 : s.counter (rateLimitKey identifier) + 1 = 1 <;>
    simp [rateLimit, rateLimitBody, redisIncr, redisExpire, redisTtl, ha, h1,
      Bind.bind, Except.bind, pure, Except.pure, Except.map]

/-- One `rateLimit` call against a reachable store reports
`success = (count <= limit)` and `remaining = max 0 (limit - count)` for
`count` the incremented counter value. -/
theorem rateLimit_step_result (s : RedisState) (now : Nat) (identifier : String)
    (limit window : Nat) (ha : s.available = true) :
    ((rateLimit s now identifier limit window).1.success = true ↔
      s.counter (rateLimitKey identifier) + 1 ≤ limit) ∧
    (rateLimit s now identifier limit window).1.remaining =
      max 0 ((limit : Int) - ((s.counter (rateLimitKey identifier) + 1 : Nat) : Int)) := by
  by_cases h1 : s.counter (rateLimitKey identifier) + 1 = 1 <;>
    simp [rateLimit, rateLimitBody, redisIncr, redisExpire, redisTtl, ha, h1,
      Bind.bind, Except.bind, pure, Except.pure, Except.map]

/-- After `n` calls for an identifier starting from an empty store, the store
is still reachable and the identifier's counter reads `n`. -/
theorem rateLimitRun_invariant (now : Nat) (identifier : String)
    (limit window : Nat) :
    ∀ n, (rateLimitRun freshRedis now identifier limit window n).available = true ∧
      (rateLimitRun freshRedis now identifier limit window n).counter
        (rateLimitKey identifier) = n := by
  intro n
  induction n with
  | zero => exact ⟨rfl, rfl⟩
  | succ k ih =>
      obtain ⟨ha, hc⟩ := ih
      obtain ⟨ha2, hc2⟩ :=
        rateLimit_step_state (rateLimitRun freshRedis now identifier limit window k)
          now identifier limit window ha
      exact ⟨ha2, by rw [rateLimitRun, hc2, hc]⟩

/-- Claim C3: starting from a fresh counter, the N-th `rateLimit` call within
one window succeeds exactly when `N <= limit` and reports
`remaining = max 0 (limit - N)`; in particular with `limit = 3` calls 1, 2, 3
are allowed with remaining 2, 1, 0 and call 4 is rejected with remaining 0. -/
theorem rateLimit_window_counts (now : Nat) (identifier : String)
    (limit window N : Nat) (hN : 1 ≤ N) :
    ((rateLimit (rateLimitRun freshRedis now identifier limit window (N - 1))
        now identifier limit window).1.success = true ↔ N ≤ limit) ∧
    (rateLimit (rateLimitRun freshRedis now identifier limit window (N - 1))
        now identifier limit window).1.remaining =
      max 0 ((limit : Int) - (N : Int)) := by
  obtain ⟨ha, hc⟩ := rateLimitRun_invariant now identifier limit window (N - 1)
  have hstep := rateLimit_step_result
    (rateLimitRun freshRedis now identifier limit window (N - 1))
    now identifier limit window ha
  rw [hc] at hstep
  have hn : N - 1 + 1 = N := by omega
  rw [hn] at hstep
  exact hstep

/-- Witness for C3: `limit = 3`, `window = 60`, identifier `"u1"`: the fourth
call within the window is rejected with remaining 0. -/
theorem rateLimit_window_counts_witness :
    ((rateLimit (rateLimitRun freshRedis 0 "u1" 3 60 (4 - 1)) 0 "u1" 3 60).1.success
        = true ↔ 4 ≤ 3) ∧
    (rateLimit (rateLimitRun freshRedis 0 "u1" 3 60 (4 - 1)) 0 "u1" 3 60).1.remaining =
      max 0 ((3 : Int) - ((4 : Nat) : Int)) :=
  rateLimit_window_counts 0 "u1" 3 60 4 (by norm_num)

/-- No row of `db` matches the scoped `where` clause for `target` when every
row carrying the target id belongs to a different user. -/
theorem matchesIdUser_all_false {db : DB} {caller target : String}
    (hforeign : ∀ m ∈ db, m.id = target → m.user_id ≠ caller) :
    ∀ m ∈ db, matchesIdUser target caller m = false := by
  intro m hm
  by_cases hid : m.id = target
  · have hu := hforeign m hm hid
    simp [matchesIdUser, hu]
  · simp [matchesIdUser, hid]

/-- Claim C6: for an id whose every owner differs from the caller, `getById`,
`update`, and `archive` behave identically whether those foreign rows exist
or the id exists for nobody (erasing every row with that id changes neither
the returned values nor the caller-visible table). -/
theorem foreign_id_indistinguishable (db : DB) (caller target : String)
    (hforeign : ∀ m ∈ db, m.id = target → m.user_id ≠ caller) :
    getById db caller target =
      getById (db.filter fun t => !(t.id == target)) caller target ∧
    (∀ f now, update db caller target f now =
      update (db.filter fun t => !(t.id == target)) caller target f now) ∧
    (archive db caller target).1 =
      (archive (db.filter fun t => !(t.id == target)) caller target).1 ∧
    ((archive db caller target).2.filter fun t => t.user_id == caller) =
      ((archive (db.filter fun t => !(t.id == target)) caller target).2.filter
        fun t => t.user_id == caller) := by
  have hall := matchesIdUser_all_false hforeign
  have hall2 : ∀ m ∈ db.filter (fun t => !(t.id == target)),
      matchesIdUser target caller m = false :=
    fun m hm => hall m (List.mem_of_mem_filter hm)
  have hf1 : findFirstModule db (matchesIdUser target caller) = none :=
    List.find?_eq_none.mpr fun x hx => by simp [hall x hx]
  have hf2 : findFirstModule (db.filter fun t => !(t.id == target))
      (matchesIdUser target caller) = none :=
    List.find?_eq_none.mpr fun x hx => by simp [hall2 x hx]
  have hmap1 : (db.map fun t =>
      if matchesIdUser target caller t then { t with archived := true } else t) = db :=
    (List.map_congr_left fun t ht => by simp [hall t ht]).trans (List.map_id db)
  have hmap2 : ((db.filter fun t => !(t.id == target)).map fun t =>
      if matchesIdUser target caller t then { t with archived := true } else t) =
      db.filter fun t => !(t.id == target) :=
    (List.map_congr_left fun t ht => by simp [hall2 t ht]).trans (List.map_id _)
  have hcnt1 : db.filter (matchesIdUser target caller) = [] :=
    List.filter_eq_nil_iff.mpr fun a ha => by simp [hall a ha]
  have hcnt2 : (db.filter fun t => !(t.id == target)).filter
      (matchesIdUser target caller) = [] :=
    List.filter_eq_nil_iff.mpr fun a ha => by simp [hall2 a ha]
  have hfilter : db.filter (fun t => t.user_id == caller) =
      (db.filter fun t => !(t.id == target)).filter fun t => t.user_id == caller := by
    rw [List.filter_filter]
    refine List.filter_congr fun t ht => ?_
    by_cases hu : t.user_id = caller
    · have hid : t.id ≠ target := fun hid => hforeign t ht hid hu
      simp [hu, hid]
    · simp [hu]
  refine ⟨?_, ?_, ?_, ?_⟩
  · simp [getById, getByIdBody, hf1, hf2]
  · intro f now
    simp [update, hf1, hf2]
  · simp [archive, dbUpdate, hcnt1, hcnt2]
  · simp only [archive, dbUpdate]
    rw [hmap1, hmap2]
    exact hfilter

/-- Witness for C6: a table holding exactly one module, owned by `"u2"` with
id `"m1"`, probed by caller `"u1"` (the `update` part instantiated at one
concrete payload and time). -/
theorem foreign_id_indistinguishable_witness :
    getById [⟨"m1", "u2", "n", some "", "c", "default", "default", false, 0, 0, 0, 0⟩]
        "u1" "m1" =
      getById (([⟨"m1", "u2", "n", some "", "c", "default", "default", false, 0, 0, 0, 0⟩] :
        DB).filter fun t => !(t.id == "m1")) "u1" "m1" ∧
    update [⟨"m1", "u2", "n", some "", "c", "default", "default", false, 0, 0, 0, 0⟩]
        "u1" "m1" ⟨"n2", none, "c2", "default", "default", 1⟩ 5 =
      update (([⟨"m1", "u2", "n", some "", "c", "default", "default", false, 0, 0, 0, 0⟩] :
        DB).filter fun t => !(t.id == "m1")) "u1" "m1"
        ⟨"n2", none, "c2", "default", "default", 1⟩ 5 ∧
    (archive [⟨"m1", "u2", "n", some "", "c", "default", "default", false, 0, 0, 0, 0⟩]
        "u1" "m1").1 =
      (archive (([⟨"m1", "u2", "n", some "", "c", "default", "default", false, 0, 0, 0, 0⟩] :
        DB).filter fun t => !(t.id == "m1")) "u1" "m1").1 ∧
    ((archive [⟨"m1", "u2", "n", some "", "c", "default", "default", false, 0, 0, 0, 0⟩]
        "u1" "m1").2.filter fun t => t.user_id == "u1") =
      ((archive (([⟨"m1", "u2", "n", some "", "c", "default", "default", false, 0, 0, 0, 0⟩] :
        DB).filter fun t => !(t.id == "m1")) "u1" "m1").2.filter
        fun t => t.user_id == "u1") := by
  obtain ⟨h1, h2, h3, h4⟩ := foreign_id_indistinguishable
    [⟨"m1", "u2", "n", some "", "c", "default", "default", false, 0, 0, 0, 0⟩]
    "u1" "m1" (by decide)
  exact ⟨h1, h2 ⟨"n2", none, "c2", "default", "default", 1⟩ 5, h3, h4⟩

/-- Claim C10: the cursor-anchor lookup of `getUserModules` is not scoped to
the caller: the id of a module owned by a different user resolves to that
module's `lastVisited`, which then bounds the caller's page (every returned
item is strictly older than the foreign module's timestamp), while a cursor
id matching no module at all makes the call behave exactly as if no cursor
had been given. -/
theorem cursor_lookup_unscoped (db : DB) (caller : String) (limit : Nat)
    (hnodup : (db.map Module.id).Nodup) :
    (∀ m ∈ db, m.user_id ≠ caller →
      resolveCursor db (some m.id) = some m.lastVisited ∧
      ∀ x ∈ (getUserModules db caller limit (some m.id)).items,
        x.lastVisited < m.lastVisited) ∧
    ∀ c, (∀ m ∈ db, m.id ≠ c) →
      getUserModules db caller limit (some c) = getUserModules db caller limit none := by
  constructor
  · intro m hm _
    have hres : resolveCursor db (some m.id) = some m.lastVisited := by
      simp [resolveCursor, findFirstModule, find?_id_of_nodup hnodup hm]
    refine ⟨hres, ?_⟩
    intro x hx
    have hfil := (mem_items hx).2
    rw [hres] at hfil
    simp only [pageFilter, Bool.and_eq_true, decide_eq_true_eq] at hfil
    exact hfil.2
  · intro c hc
    have hres : resolveCursor db (some c) = none := by
      have : db.find? (fun t => t.id == c) = none :=
        List.find?_eq_none.mpr fun x hx => by simp [hc x hx]
      simp [resolveCursor, findFirstModule, this]
    simp only [getUserModules, hres]
    rfl

/-- Witness for C10: caller `"u1"` owns modules visited at 100 and 10, user
`"u2"` owns one visited at 50; `"u2"`'s id as cursor bounds `"u1"`'s page at
50, and an unknown cursor id behaves like no cursor. -/
theorem cursor_lookup_unscoped_witness :
    resolveCursor
        [⟨"a1", "u1", "A", some "", "c", "default", "default", false, 0, 0, 0, 100⟩,
         ⟨"b1", "u1", "B", some "", "c", "default", "default", false, 0, 0, 0, 10⟩,
         ⟨"f1", "u2", "F", some "", "c", "default", "default", false, 0, 0, 0, 50⟩]
        (some "f1") = some 50 ∧
    (10 : Nat) < 50 ∧
    getUserModules
        [⟨"a1", "u1", "A", some "", "c", "default", "default", false, 0, 0, 0, 100⟩,
         ⟨"b1", "u1", "B", some "", "c", "default", "default", false, 0, 0, 0, 10⟩,
         ⟨"f1", "u2", "F", some "", "c", "default", "default", false, 0, 0, 0, 50⟩]
        "u1" 20 (some "zz") =
      getUserModules
        [⟨"a1", "u1", "A", some "", "c", "default", "default", false, 0, 0, 0, 100⟩,
         ⟨"b1", "u1", "B", some "", "c", "default", "default", false, 0, 0, 0, 10⟩,
         ⟨"f1", "u2", "F", some "", "c", "default", "default", false, 0, 0, 0, 50⟩]
        "u1" 20 none := by
  obtain ⟨h1, h2⟩ := cursor_lookup_unscoped
    [⟨"a1", "u1", "A", some "", "c", "default", "default", false, 0, 0, 0, 100⟩,
     ⟨"b1", "u1", "B", some "", "c", "default", "default", false, 0, 0, 0, 10⟩,
     ⟨"f1", "u2", "F", some "", "c", "default", "default", false, 0, 0, 0, 50⟩]
    "u1" 20 (by decide)
  obtain ⟨hres, hbound⟩ := h1
    ⟨"f1", "u2", "F", some "", "c", "default", "default", false, 0, 0, 0, 50⟩
    (by decide) (by decide)
  exact ⟨hres,
    hbound ⟨"b1", "u1", "B", some "", "c", "default", "default", false, 0, 0, 0, 10⟩
      (by decide),
    h2 "zz" (by decide)⟩

/-- A row passing the page `where` clause belongs to the caller. -/
theorem pageFilter_user {userId : String} {cd : Option Nat} {t : Module}
    (h : pageFilter userId cd t = true) : t.user_id = userId := by
  cases cd with
  | none => simpa [pageFilter] using h
  | some d =>
      simp only [pageFilter, Bool.and_eq_true, beq_iff_eq] at h
      exact h.1

/-- When strictly more matching rows exist than `limit`, `getUserModules`
returns the fetched `limit + 1` rows minus the sentinel, and points its
cursor at the last of them. -/
theorem getUserModules_eq_of_hasMore (db : DB) (caller : String) (limit : Nat)
    (cursor : Option String)
    (hmore : limit < (db.filter (pageFilter caller (resolveCursor db cursor))).length) :
    getUserModules db caller limit cursor =
      { items := (findManyByLastVisited db (pageFilter caller (resolveCursor db cursor))
          (limit + 1)).dropLast
        nextCursor := ((findManyByLastVisited db (pageFilter caller (resolveCursor db cursor))
          (limit + 1)).dropLast.getLast?).map Module.id } := by
  have hc : limit < (findManyByLastVisited db (pageFilter caller (resolveCursor db cursor))
      (limit + 1)).length := by
    rw [findMany_length]
    omega
  simp only [getUserModules, if_pos hc]

/-- When at most `limit` matching rows exist, `getUserModules` returns the
whole fetch and no cursor. -/
theorem getUserModules_eq_of_noMore (db : DB) (caller : String) (limit : Nat)
    (cursor : Option String)
    (hle : (db.filter (pageFilter caller (resolveCursor db cursor))).length ≤ limit) :
    getUserModules db caller limit cursor =
      { items := findManyByLastVisited db (pageFilter caller (resolveCursor db cursor))
          (limit + 1)
        nextCursor := none } := by
  have hc : ¬ limit < (findManyByLastVisited db (pageFilter caller (resolveCursor db cursor))
      (limit + 1)).length := by
    rw [findMany_length]
    omega
  simp only [getUserModules, if_neg hc]

/-- Claim C5: `getUserModules` returns at most `limit` of the caller's own
rows ordered by `lastVisited` descending; the internal fetch asks for
`limit + 1` rows; a cursor that resolves bounds every returned row strictly
below the anchor's `lastVisited`; `nextCursor` is the last returned item's id
when a further page exists and is omitted otherwise. -/
theorem getUserModules_spec (db : DB) (caller : String) (limit : Nat)
    (cursor : Option String) (hlimit : 1 ≤ limit) :
    (∀ m ∈ (getUserModules db caller limit cursor).items, m ∈ db ∧ m.user_id = caller) ∧
    (getUserModules db caller limit cursor).items.length ≤ limit ∧
    (getUserModules db caller limit cursor).items.Pairwise
      (fun a b => b.lastVisited ≤ a.lastVisited) ∧
    (findManyByLastVisited db (pageFilter caller (resolveCursor db cursor))
        (limit + 1)).length =
      min (limit + 1) (db.filter (pageFilter caller (resolveCursor db cursor))).length ∧
    (∀ c mc, cursor = some c → findFirstModule db (fun t => t.id == c) = some mc →
      resolveCursor db cursor = some mc.lastVisited ∧
      ∀ m ∈ (getUserModules db caller limit cursor).items,
        m.lastVisited < mc.lastVisited) ∧
    (limit < (db.filter (pageFilter caller (resolveCursor db cursor))).length →
      (getUserModules db caller limit cursor).items.length = limit ∧
      ∃ h : (getUserModules db caller limit cursor).items ≠ [],
        (getUserModules db caller limit cursor).nextCursor =
          some (((getUserModules db caller limit cursor).items.getLast h).id)) ∧
    ((db.filter (pageFilter caller (resolveCursor db cursor))).length ≤ limit →
      (getUserModules db caller limit cursor).nextCursor = none ∧
      (getUserModules db caller limit cursor).items =
        findManyByLastVisited db (pageFilter caller (resolveCursor db cursor))
          (limit + 1)) := by
  refine ⟨?_, items_length_le db caller limit cursor,
    items_pairwise db caller limit cursor,
    findMany_length db (pageFilter caller (resolveCursor db cursor)) (limit + 1),
    ?_, ?_, ?_⟩
  · intro m hm
    obtain ⟨hdb, hfil⟩ := mem_items hm
    exact ⟨hdb, pageFilter_user hfil⟩
  · intro c mc hc hfind
    have hres : resolveCursor db cursor = some mc.lastVisited := by
      rw [hc]
      simp [resolveCursor, hfind]
    refine ⟨hres, ?_⟩
    intro m hm
    have hfil := (mem_items hm).2
    rw [hres] at hfil
    simp only [pageFilter, Bool.and_eq_true, decide_eq_true_eq] at hfil
    exact hfil.2
  · intro hmore
    have heq := getUserModules_eq_of_hasMore db caller limit cursor hmore
    have hflen : (findManyByLastVisited db
        (pageFilter caller (resolveCursor db cursor)) (limit + 1)).length = limit + 1 := by
      rw [findMany_length]
      omega
    have hilen : (getUserModules db caller limit cursor).items.length = limit := by
      rw [heq]
      simp [List.length_dropLast, hflen]
    refine ⟨hilen, ?_⟩
    have hne : (getUserModules db caller limit cursor).items ≠ [] := by
      intro habs
      rw [habs] at hilen
      simp at hilen
      omega
    refine ⟨hne, ?_⟩
    have hlast := List.getLast?_eq_getLast (getUserModules db caller limit cursor).items hne
    calc (getUserModules db caller limit cursor).nextCursor
        = ((getUserModules db caller limit cursor).items.getLast?).map Module.id := by
          rw [heq]
      _ = some (((getUserModules db caller limit cursor).items.getLast hne).id) := by
          rw [hlast]
          rfl
  · intro hle
    have heq := getUserModules_eq_of_noMore db caller limit cursor hle
    rw [heq]
    exact ⟨rfl, rfl⟩

/-- Witness for C5: caller `"u1"` with three modules visited at 30, 20, 10,
`limit = 1`, cursor at the module visited at 20: the page is the module
visited at 10 and no further page exists. -/
theorem getUserModules_spec_witness :
    (⟨"c1", "u1", "C", some "", "c", "default", "default", false, 0, 0, 0, 10⟩ : Module) ∈
      ([⟨"a1", "u1", "A", some "", "c", "default", "default", false, 0, 0, 0, 30⟩,
        ⟨"b1", "u1", "B", some "", "c", "default", "default", false, 0, 0, 0, 20⟩,
        ⟨"c1", "u1", "C", some "", "c", "default", "default", false, 0, 0, 0, 10⟩] : DB) ∧
    (⟨"c1", "u1", "C", some "", "c", "default", "default", false, 0, 0, 0, 10⟩ :
      Module).user_id = "u1" ∧
    (getUserModules
        [⟨"a1", "u1", "A", some "", "c", "default", "default", false, 0, 0, 0, 30⟩,
         ⟨"b1", "u1", "B", some "", "c", "default", "default", false, 0, 0, 0, 20⟩,
         ⟨"c1", "u1", "C", some "", "c", "default", "default", false, 0, 0, 0, 10⟩]
        "u1" 1 (some "b1")).items.length ≤ 1 ∧
    resolveCursor
        [⟨"a1", "u1", "A", some "", "c", "default", "default", false, 0, 0, 0, 30⟩,
         ⟨"b1", "u1", "B", some "", "c", "default", "default", false, 0, 0, 0, 20⟩,
         ⟨"c1", "u1", "C", some "", "c", "default", "default", false, 0, 0, 0, 10⟩]
        (some "b1") = some 20 ∧
    (10 : Nat) < 20 ∧
    (getUserModules
        [⟨"a1", "u1", "A", some "", "c", "default", "default", false, 0, 0, 0, 30⟩,
         ⟨"b1", "u1", "B", some "", "c", "default", "default", false, 0, 0, 0, 20⟩,
         ⟨"c1", "u1", "C", some "", "c", "default", "default", false, 0, 0, 0, 10⟩]
        "u1" 1 (some "b1")).nextCursor = none := by
  obtain ⟨h1, h2, h3, h4, h5, h6, h7⟩ := getUserModules_spec
    [⟨"a1", "u1", "A", some "", "c", "default", "default", false, 0, 0, 0, 30⟩,
     ⟨"b1", "u1", "B", some "", "c", "default", "default", false, 0, 0, 0, 20⟩,
     ⟨"c1", "u1", "C", some "", "c", "default", "default", false, 0, 0, 0, 10⟩]
    "u1" 1 (some "b1") (by norm_num)
  obtain ⟨hres, hbound⟩ := h5 "b1"
    ⟨"b1", "u1", "B", some "", "c", "default", "default", false, 0, 0, 0, 20⟩
    rfl (by decide)
  obtain ⟨hmem, huser⟩ := h1
    ⟨"c1", "u1", "C", some "", "c", "default", "default", false, 0, 0, 0, 10⟩
    (by decide)
  exact ⟨hmem, huser, h2, hres,
    hbound ⟨"c1", "u1", "C", some "", "c", "default", "default", false, 0, 0, 0, 10⟩
      (by decide),
    (h7 (by decide)).1⟩

/-- Claim C2: for a caller owning more than 20 modules, the cursorless page at
`limit = 20` holds at most 20 items ordered by `lastVisited` descending, and
the page requested with the returned `nextCursor` shares no item with it (the
strict `lt` bound below the anchor's timestamp can skip ties but never repeat
a row). -/
theorem getUserModules_pages_disjoint (db : DB) (caller : String)
    (hnodup : (db.map Module.id).Nodup)
    (hcount : 20 < (db.filter fun t => t.user_id == caller).length) :
    (getUserModules db caller 20 none).items.length ≤ 20 ∧
    (getUserModules db caller 20 none).items.Pairwise
      (fun a b => b.lastVisited ≤ a.lastVisited) ∧
    ∀ m ∈ (getUserModules db caller 20 none).items,
      m ∉ (getUserModules db caller 20
        (getUserModules db caller 20 none).nextCursor).items := by
  have hmore : 20 < (db.filter (pageFilter caller (resolveCursor db none))).length := hcount
  have heq1 := getUserModules_eq_of_hasMore db caller 20 none hmore
  have hflen : (findManyByLastVisited db (pageFilter caller (resolveCursor db none))
      (20 + 1)).length = 20 + 1 := by
    rw [findMany_length]
    omega
  have hilen : (getUserModules db caller 20 none).items.length = 20 := by
    rw [heq1]
    simp [List.length_dropLast, hflen]
  have hne : (getUserModules db caller 20 none).items ≠ [] := by
    intro habs
    rw [habs] at hilen
    simp at hilen
  have hpair := items_pairwise db caller 20 none
  refine ⟨items_length_le db caller 20 none, hpair, ?_⟩
  intro m hm1 hm2
  obtain ⟨anchor, hanchor⟩ : ∃ a, (getUserModules db caller 20 none).items.getLast? = some a :=
    ⟨_, List.getLast?_eq_getLast _ hne⟩
  have hanch_getLast : anchor = (getUserModules db caller 20 none).items.getLast hne := by
    rw [List.getLast?_eq_getLast _ hne] at hanchor
    exact (Option.some_injective _ hanchor).symm
  have hanch_mem : anchor ∈ (getUserModules db caller 20 none).items := by
    rw [hanch_getLast]
    exact List.getLast_mem hne
  have hanch_db : anchor ∈ db := (mem_items hanch_mem).1
  have hcursor : (getUserModules db caller 20 none).nextCursor = some anchor.id := by
    have hanchor2 := hanchor
    simp only [heq1] at hanchor2
    simp only [heq1]
    rw [hanchor2]
    rfl
  have hres : resolveCursor db (some anchor.id) = some anchor.lastVisited := by
    simp [resolveCursor, findFirstModule, find?_id_of_nodup hnodup hanch_db]
  rw [hcursor] at hm2
  have hfil2 := (mem_items hm2).2
  rw [hres] at hfil2
  simp only [pageFilter, Bool.and_eq_true, decide_eq_true_eq] at hfil2
  have hge : anchor.lastVisited ≤ m.lastVisited := by
    rw [hanch_getLast]
    exact getLast_lastVisited_le hpair hne m hm1
  omega

/-- Witness for C2: caller `"u1"` owns 21 modules with distinct ids and
last-visited times 0 to 20; the most recently visited module is on page 1 and
absent from page 2. -/
theorem getUserModules_pages_disjoint_witness :
    (getUserModules ((List.range 21).map fun i =>
        (⟨String.mk (List.replicate (i + 1) 'a'), "u1", "M", some "", "c",
          "default", "default", false, 0, 0, 0, i⟩ : Module))
      "u1" 20 none).items.length ≤ 20 ∧
    (⟨String.mk (List.replicate 21 'a'), "u1", "M", some "", "c",
        "default", "default", false, 0, 0, 0, 20⟩ : Module) ∉
      (getUserModules ((List.range 21).map fun i =>
          (⟨String.mk (List.replicate (i + 1) 'a'), "u1", "M", some "", "c",
            "default", "default", false, 0, 0, 0, i⟩ : Module))
        "u1" 20
        (getUserModules ((List.range 21).map fun i =>
            (⟨String.mk (List.replicate (i + 1) 'a'), "u1", "M", some "", "c",
              "default", "default", false, 0, 0, 0, i⟩ : Module))
          "u1" 20 none).nextCursor).items := by
  obtain ⟨h1, h2, h3⟩ := getUserModules_pages_disjoint
    ((List.range 21).map fun i =>
      (⟨String.mk (List.replicate (i + 1) 'a'), "u1", "M", some "", "c",
        "default", "default", false, 0, 0, 0, i⟩ : Module))
    "u1" (by decide) (by decide)
  exact ⟨h1, h3
    ⟨String.mk (List.replicate 21 'a'), "u1", "M", some "", "c",
      "default", "default", false, 0, 0, 0, 20⟩
    (by decide)⟩

/-- The update payload changes neither `id` nor `user_id`, so the scoped
`where` clause is insensitive to it. -/
theorem matchesIdUser_applyUpdateFields (id userId : String) (f : UpdateFields)
    (now : Nat) (t : Module) :
    matchesIdUser id userId (applyUpdateFields f now t) = matchesIdUser id userId t :=
  rfl

/-- Mapping a guarded rewrite over the table sends the first matching row to
its rewritten form, provided the rewrite preserves the guard. -/
theorem find?_map_guarded (p : Module → Bool) (g : Module → Module)
    (hg : ∀ t, p (g t) = p t) :
    ∀ {db : DB} {m : Module}, db.find? p = some m →
      (db.map fun t => if p t then g t else t).find? p = some (g m) := by
  intro db
  induction db with
  | nil =>
      intro m h
      cases h
  | cons a l ih =>
      intro m h
      by_cases hpa : p a = true
      · rw [List.find?_cons_of_pos _ hpa] at h
        obtain rfl : a = m := Option.some_injective _ h
        rw [List.map_cons, if_pos hpa, List.find?_cons_of_pos _ (by rw [hg]; exact hpa)]
      · rw [List.find?_cons_of_neg _ (by simpa using hpa)] at h
        rw [List.map_cons, if_neg hpa,
          List.find?_cons_of_neg _ (by simpa using hpa)]
        exact ih h

/-- A successful `update` leaves the caller's module present, with all the
new field values and `modifiedAt := now` applied. -/
theorem moduleState_updateDb {db : DB} {userId moduleId : String}
    (f : UpdateFields) (now : Nat) {m : Module}
    (hm : moduleState db userId moduleId = some m) :
    moduleState (updateDb db userId moduleId f now) userId moduleId =
      some (applyUpdateFields f now m) := by
  have hm' : findFirstModule db (matchesIdUser moduleId userId) = some m := hm
  have hupd : updateDb db userId moduleId f now =
      db.map fun t =>
        if matchesIdUser moduleId userId t then applyUpdateFields f now t else t := by
    unfold updateDb update
    rw [hm']
    rfl
  rw [hupd]
  exact find?_map_guarded (matchesIdUser moduleId userId) (applyUpdateFields f now)
    (fun t => rfl) hm'

/-- The observed `modifiedAt` after each call of an update sequence on a
present module is exactly the sequence of call times. -/
theorem modifiedAtTrace_eq_times (userId moduleId : String) :
    ∀ (steps : List (UpdateFields × Nat)) (db : DB) (m : Module),
      moduleState db userId moduleId = some m →
      modifiedAtTrace db userId moduleId steps = steps.map Prod.snd := by
  intro steps
  induction steps with
  | nil =>
      intro db m _
      rfl
  | cons s rest ih =>
      intro db m hm
      have hstep := moduleState_updateDb s.1 s.2 hm
      simp only [modifiedAtTrace, List.map_cons]
      rw [hstep, ih _ _ hstep]
      rfl

/-- Claim C8: every `update` call stamps `modifiedAt` with the call's clock
value, so across any sequence of updates on a caller-owned module whose call
times are non-decreasing and never precede the module's creation, the
observed `modifiedAt` trace equals the call times, is monotonically
non-decreasing, and stays at or above `createdAt`. -/
theorem update_modifiedAt_monotone (db : DB) (userId moduleId : String)
    (m : Module) (steps : List (UpdateFields × Nat))
    (hm : moduleState db userId moduleId = some m)
    (htimes : (steps.map Prod.snd).Chain' (· ≤ ·))
    (hcreated : ∀ s ∈ steps, m.createdAt ≤ s.2) :
    modifiedAtTrace db userId moduleId steps = steps.map Prod.snd ∧
    (modifiedAtTrace db userId moduleId steps).Chain' (· ≤ ·) ∧
    ∀ v ∈ modifiedAtTrace db userId moduleId steps, m.createdAt ≤ v := by
  have htr := modifiedAtTrace_eq_times userId moduleId steps db m hm
  refine ⟨htr, htr ▸ htimes, ?_⟩
  intro v hv
  rw [htr] at hv
  obtain ⟨s, hs, rfl⟩ := List.mem_map.mp hv
  exact hcreated s hs

/-- Witness for C8: a module created at time 100 updated at times 150 and
200: the observed `modifiedAt` trace is `[150, 200]`. -/
theorem update_modifiedAt_monotone_witness :
    modifiedAtTrace
        [⟨"m1", "u1", "N", some "", "c", "default", "default", false, 0, 100, 100, 100⟩]
        "u1" "m1"
        [(⟨"N2", none, "c", "default", "default", 0⟩, 150),
         (⟨"N3", none, "c", "default", "default", 0⟩, 200)] = [150, 200] ∧
    (modifiedAtTrace
        [⟨"m1", "u1", "N", some "", "c", "default", "default", false, 0, 100, 100, 100⟩]
        "u1" "m1"
        [(⟨"N2", none, "c", "default", "default", 0⟩, 150),
         (⟨"N3", none, "c", "default", "default", 0⟩, 200)]).Chain' (· ≤ ·) ∧
    (100 : Nat) ≤ 200 := by
  obtain ⟨h1, h2, h3⟩ := update_modifiedAt_monotone
    [⟨"m1", "u1", "N", some "", "c", "default", "default", false, 0, 100, 100, 100⟩]
    "u1" "m1"
    ⟨"m1", "u1", "N", some "", "c", "default", "default", false, 0, 100, 100, 100⟩
    [(⟨"N2", none, "c", "default", "default", 0⟩, 150),
     (⟨"N3", none, "c", "default", "default", 0⟩, 200)]
    (by decide) (by simp) (by decide)
  exact ⟨h1, h2, h3 200 (by decide)⟩

end Noodle
